import Mathlib

/-!
Shallow embedding of the nanobot core (MCP capability adapter and channel
manager) and verification of its specified properties.

The MCP adapter (`src/nanobot/agent/tools/mcp.py`) is modelled as a pure
fold over the configured servers.  Each `await` on an external collaborator
(opening a transport, entering the protocol session, the handshake,
listing tools) is represented by an oracle field of `ServerWorld` recording
how that call resolves (`Except.ok` for a normal return, `Except.error`
for a raised exception).  The `AsyncExitStack` is modelled as the list of
resources entered onto it, in acquisition order; closing the stack
finalizes them in reverse order.

The channel manager (`src/nanobot/channels/manager.py`) is modelled by
functions producing the trace of observable actions (task launches, send
invocations, channel stops, log records).  The dispatcher loop consumes an
explicit stream of queue events: a delivered message, a bounded-wait
timeout, or a cancellation signal.
-/

deriving instance DecidableEq for Except

namespace Nanobot

/-- Log levels of the `loguru` logger as used by the code. -/
inductive LogLevel
  | debug
  | info
  | warning
  | error
deriving DecidableEq, Repr

/-- One emitted log record: level and message text. -/
structure LogEntry where
  level : LogLevel
  message : String
deriving DecidableEq, Repr

/-! ## MCP adapter data model (`src/nanobot/agent/tools/mcp.py`) -/

/-- A remote tool definition as returned by `session.list_tools()`:
`name`, optional `description`, optional `inputSchema` (the schema is kept
as an opaque string; Python truthiness makes both `None` and the empty
value fall back to the default). -/
structure ToolDef where
  name : String
  description : Option String
  inputSchema : Option String
deriving DecidableEq, Repr

/-- Python `x or d` on an optional string: `None` and `""` are falsy. -/
def pyOrStr : Option String → String → String
  | none, d => d
  | some s, d => if s = "" then d else s

/-- Python truthiness of an optional string field (`if cfg.command:`):
`None` and `""` are falsy, everything else truthy. -/
def truthyStr : Option String → Bool
  | none => false
  | some s => s ≠ ""

/-- The default parameter schema `{"type": "object", "properties": {}}`. -/
def defaultSchema : String :=
  "\x7b\"type\": \"object\", \"properties\": \x7b\x7d\x7d"

/-- The state of `MCPToolWrapper.__init__`: original remote name, composite
wrapper name, description and parameter schema with their defaults. -/
structure MCPToolWrapper where
  originalName : String
  name : String
  description : String
  parameters : String
deriving DecidableEq, Repr

/-- Model of `MCPToolWrapper.__init__(session, server_name, tool_def)` (the session
reference is not part of the pure data). -/
def MCPToolWrapper.make (server_name : String) (tool_def : ToolDef) : MCPToolWrapper :=
  { originalName := tool_def.name
    name := "mcp_" ++ server_name ++ "_" ++ tool_def.name
    description := pyOrStr tool_def.description tool_def.name
    parameters := pyOrStr tool_def.inputSchema defaultSchema }

/-- One content block of a `call_tool` response: either a
`types.TextContent` carrying `text`, or any other block, recorded by its
`str(block)` rendering. -/
inductive ContentBlock
  | text (text : String)
  | other (s : String)
deriving DecidableEq, Repr

/-- The response of `session.call_tool`: its list of content blocks. -/
structure CallToolResult where
  content : List ContentBlock
deriving DecidableEq, Repr

/-- The contribution of one content block to the `parts` list built by
`MCPToolWrapper.execute`: the `text` of a text block, `str(block)` of any
other block. -/
def blockToPart : ContentBlock → String
  | .text t => t
  | .other s => s

/-- Model of `MCPToolWrapper.execute`, given the already-returned remote response:
builds `parts`, joins with newlines, and replaces an empty join by the
sentinel (Python `"\n".join(parts) or "(no output)"`). -/
def MCPToolWrapper.execute (result : CallToolResult) : String :=
  let parts := result.content.map blockToPart
  let joined := String.intercalate "\n" parts
  if joined = "" then "(no output)" else joined

/-- One configured MCP server entry (`cfg`): stdio fields and url. -/
structure ServerConfig where
  command : Option String
  args : List String
  env : Option (List (String × String))
  url : Option String
deriving DecidableEq, Repr

/-- A scoped resource entered onto the `AsyncExitStack`, tagged with the
server it belongs to. -/
inductive Resource
  | transportStdio (server : String)
  | transportHttp (server : String)
  | session (server : String)
deriving DecidableEq, Repr

/-- The server a resource belongs to. -/
def Resource.server : Resource → String
  | .transportStdio s => s
  | .transportHttp s => s
  | .session s => s

/-- Oracle for one server's external interactions: how each awaited call
resolves (`ok` = normal return, `error` = raised exception). -/
structure ServerWorld where
  stdioOpen : Except String Unit
  httpOpen : Except String Unit
  sessionEnter : Except String Unit
  handshakeRes : Except String Unit
  listToolsRes : Except String (List ToolDef)
deriving DecidableEq, Repr

/-- Outcome of one server's iteration of the `connect_mcp_servers` loop. -/
inductive SetupOutcome
  | skippedNoTransport
  | failed (msg : String)
  | connected (toolCount : Nat)
deriving DecidableEq, Repr

/-- The effects of one server's setup: resources entered onto the stack (in
acquisition order), wrappers registered, log records, and the outcome. -/
structure ServerEffects where
  resources : List Resource
  wrappers : List MCPToolWrapper
  log : List LogEntry
  outcome : SetupOutcome
deriving DecidableEq, Repr

/-- The part of one server's setup after its transport has been entered:
enter the `ClientSession`, `initialize` handshake, `list_tools`, then
construct and register one wrapper per remote tool. -/
def afterTransport (name : String) (w : ServerWorld) (transport : Resource) : ServerEffects :=
  match w.sessionEnter with
  | .error e => ⟨[transport], [], [], .failed e⟩
  | .ok _ =>
    match w.handshakeRes with
    | .error e => ⟨[transport, Resource.session name], [], [], .failed e⟩
    | .ok _ =>
      match w.listToolsRes with
      | .error e => ⟨[transport, Resource.session name], [], [], .failed e⟩
      | .ok tools =>
        let wrappers := tools.map (MCPToolWrapper.make name)
        ⟨[transport, Resource.session name], wrappers,
          wrappers.map (fun wr =>
            ⟨.debug, "MCP: registered tool " ++ wr.name ++ " from server " ++ name⟩)
          ++ [⟨.info, "MCP server " ++ name ++ ": connected, "
                ++ toString tools.length ++ " tools registered"⟩],
          .connected tools.length⟩

/-- The body of one iteration of the `connect_mcp_servers` loop (the inside
of its `try`): select the transport by Python truthiness of `cfg.command`
then `cfg.url` (skipping with a warning when both are falsy), then proceed
with session, handshake, listing and registration. -/
def setupServer (name : String) (cfg : ServerConfig) (w : ServerWorld) : ServerEffects :=
  if truthyStr cfg.command then
    match w.stdioOpen with
    | .error e => ⟨[], [], [], .failed e⟩
    | .ok _ => afterTransport name w (Resource.transportStdio name)
  else if truthyStr cfg.url then
    match w.httpOpen with
    | .error e => ⟨[], [], [], .failed e⟩
    | .ok _ => afterTransport name w (Resource.transportHttp name)
  else
    ⟨[], [], [⟨.warning, "MCP server " ++ name ++ ": no command or url configured, skipping"⟩],
      .skippedNoTransport⟩

/-- The adapter's accumulated state: the enclosing `AsyncExitStack`
contents (acquisition order), the tool registry contents, and the log.
Registration is modelled from the spec: `register(tool)` adds the
capability to the registry catalog. -/
structure AdapterState where
  stack : List Resource
  registry : List MCPToolWrapper
  log : List LogEntry
deriving DecidableEq, Repr

/-- One configured server: its dict key, config, and oracle. -/
abbrev MCPItem : Type := String × ServerConfig × ServerWorld

/-- One full iteration of the `connect_mcp_servers` loop, `try`/`except`
included: the effects of `setupServer` are appended to the state, and a
`failed` outcome (a raised exception) is caught and logged with the server
name, never propagated. -/
def connectStep (st : AdapterState) (item : MCPItem) : AdapterState :=
  let eff := setupServer item.1 item.2.1 item.2.2
  let st1 : AdapterState :=
    ⟨st.stack ++ eff.resources, st.registry ++ eff.wrappers, st.log ++ eff.log⟩
  match eff.outcome with
  | .failed e =>
      { st1 with
        log := st1.log ++ [⟨.error, "MCP server " ++ item.1 ++ ": failed to connect: " ++ e⟩] }
  | _ => st1

/-- Model of `connect_mcp_servers(mcp_servers, registry, stack)`: the loop over the
configured servers, starting from the caller's state. -/
def connect_mcp_servers (servers : List MCPItem) (st : AdapterState) : AdapterState :=
  servers.foldl connectStep st

/-- Closing the enclosing `AsyncExitStack`: the entered resources are
finalized in reverse order of acquisition, each exactly as often as it was
entered. -/
def closeStack (st : AdapterState) : List Resource :=
  st.stack.reverse

/-! ## Channel manager (`src/nanobot/channels/manager.py`) -/

/-- An outbound bus message: its `channel` routing key and content (the
channel-specific metadata is opaque to the manager). -/
structure OutboundMessage where
  channel : String
  content : String
deriving DecidableEq, Repr

/-- One managed channel, by its externally observable behavior: how
`send` resolves (per message) and how `stop` resolves. -/
structure ChannelConf where
  sendRes : OutboundMessage → Except String Unit
  stopRes : Except String Unit

/-- Lookup `self.channels.get(key)` on the registration table (dict keys are
unique; the model keeps insertion order and returns the first match). -/
def channelsGet (channels : List (String × ChannelConf)) (key : String) : Option ChannelConf :=
  match channels with
  | [] => none
  | (n, c) :: rest => if n = key then some c else channelsGet rest key

/-- One observable action of the dispatcher. -/
inductive DispatchAction
  | sendInvoked (channel : String) (msg : OutboundMessage)
  | logged (e : LogEntry)
deriving DecidableEq, Repr

/-- One event observed by the dispatcher's bounded wait on the outbound
queue: a consumed message, an `asyncio.TimeoutError` of the bounded wait,
or an `asyncio.CancelledError` delivered while waiting. -/
inductive QueueEvent
  | message (m : OutboundMessage)
  | timedOut
  | cancelled
deriving Repr

/-- Handling of one consumed outbound message by the dispatcher: look the
channel up in the registration table; if found, invoke its `send` and
catch-and-log any failure; if not found, log a warning (the message is
dropped). -/
def handleMessage (channels : List (String × ChannelConf)) (msg : OutboundMessage) :
    List DispatchAction :=
  match channelsGet channels msg.channel with
  | some ch =>
    match ch.sendRes msg with
    | .ok _ => [.sendInvoked msg.channel msg]
    | .error e =>
        [.sendInvoked msg.channel msg,
          .logged ⟨.error, "Error sending to " ++ msg.channel ++ ": " ++ e⟩]
  | none => [.logged ⟨.warning, "Unknown channel: " ++ msg.channel⟩]

/-- The `while True` loop of `_dispatch_outbound` over the observed stream
of queue events: a message is handled and the loop continues; a timeout of
the bounded wait just loops again; a cancellation breaks out of the loop
(no further event is processed). The empty stream models a loop still
waiting. -/
def dispatchLoop (channels : List (String × ChannelConf)) :
    List QueueEvent → List DispatchAction
  | [] => []
  | .message m :: rest => handleMessage channels m ++ dispatchLoop channels rest
  | .timedOut :: rest => dispatchLoop channels rest
  | .cancelled :: _ => []

/-- Model of `_dispatch_outbound`: logs its startup record, then runs the loop. -/
def dispatchOutbound (channels : List (String × ChannelConf)) (events : List QueueEvent) :
    List DispatchAction :=
  .logged ⟨.info, "Outbound dispatcher started"⟩ :: dispatchLoop channels events

/-- One observable action of `start_all`. -/
inductive StartAction
  | logged (e : LogEntry)
  | dispatcherTaskStarted
  | channelTaskStarted (name : String)
deriving DecidableEq, Repr

/-- Model of `start_all`: if the channel table is empty, warn and return; otherwise
create the dispatcher task, then one task per channel (logging each
start). -/
def start_all (channels : List (String × ChannelConf)) : List StartAction :=
  if channels.isEmpty then
    [.logged ⟨.warning, "No channels enabled"⟩]
  else
    .dispatcherTaskStarted ::
      (channels.map (fun it =>
        [StartAction.logged ⟨.info, "Starting " ++ it.1 ++ " channel..."⟩,
          StartAction.channelTaskStarted it.1])).flatten

/-- One observable action of `stop_all`. -/
inductive StopAction
  | cancelDispatcher
  | awaitDispatcher
  | stopInvoked (name : String)
  | logged (e : LogEntry)
deriving DecidableEq, Repr

/-- One iteration of the channel-stop loop of `stop_all`: `stop` is
invoked; a normal return is logged at info level, a raised exception is
caught and logged at error level (and the loop continues). -/
def stopChannelStep (it : String × ChannelConf) : List StopAction :=
  match it.2.stopRes with
  | .ok _ => [.stopInvoked it.1, .logged ⟨.info, "Stopped " ++ it.1 ++ " channel"⟩]
  | .error e => [.stopInvoked it.1, .logged ⟨.error, "Error stopping " ++ it.1 ++ ": " ++ e⟩]

/-- Model of `stop_all`: log, then (when a dispatcher task exists) cancel it and
await it — the await resolving in `asyncio.CancelledError`, which the
`except` swallows so that execution continues — then stop every channel in
turn. -/
def stop_all (hasDispatchTask : Bool) (channels : List (String × ChannelConf)) :
    List StopAction :=
  .logged ⟨.info, "Stopping all channels..."⟩ ::
    ((if hasDispatchTask then [StopAction.cancelDispatcher, StopAction.awaitDispatcher] else [])
      ++ (channels.map stopChannelStep).flatten)

/-! ## Auxiliary definitions for the statements -/

/-- The channel names whose task was started, in trace order. -/
def startedChannelTasks (trace : List StartAction) : List String :=
  trace.filterMap fun a =>
    match a with
    | .channelTaskStarted n => some n
    | _ => none

/-- The channel names on which `stop` was invoked, in trace order. -/
def stoppedChannels (trace : List StopAction) : List String :=
  trace.filterMap fun a =>
    match a with
    | .stopInvoked n => some n
    | _ => none

/-- Whether an action is the launch of the dispatcher task. -/
def isDispatcherStart : StartAction → Bool
  | .dispatcherTaskStarted => true
  | _ => false

/-- How many dispatcher tasks a `start_all` trace launched. -/
def dispatcherStartCount (trace : List StartAction) : Nat :=
  (trace.filter isDispatcherStart).length

/-- Sample oracle in which every external call succeeds and `list_tools`
returns `tools`. -/
def sampleWorldOk (tools : List ToolDef) : ServerWorld :=
  ⟨.ok (), .ok (), .ok (), .ok (), .ok tools⟩

/-- Sample oracle in which the handshake raises. -/
def sampleWorldBadHandshake : ServerWorld :=
  ⟨.ok (), .ok (), .ok (), .error "handshake refused", .ok []⟩

/-- Sample stdio server config. -/
def sampleStdioCfg : ServerConfig :=
  ⟨some "run-server", [], none, none⟩

/-- Sample config with neither command nor url. -/
def sampleEmptyCfg : ServerConfig :=
  ⟨none, [], none, none⟩

/-- The adapter state before any server is processed (empty caller stack,
empty registry, empty log). -/
def emptyState : AdapterState :=
  ⟨[], [], []⟩

/-- Sample channel whose `send` and `stop` succeed. -/
def sampleChanOk : ChannelConf :=
  ⟨fun _ => .ok (), .ok ()⟩

/-- Sample channel whose `send` raises. -/
def sampleChanSendFail : ChannelConf :=
  ⟨fun _ => .error "socket closed", .ok ()⟩

/-- Sample channel whose `stop` raises. -/
def sampleChanStopFail : ChannelConf :=
  ⟨fun _ => .ok (), .error "stop timeout"⟩

/-! ## Theorems -/

/-- Exhaustive shape of one transport-selection step of `setupServer`. -/
theorem setupServer_char (n : String) (c : ServerConfig) (w : ServerWorld) :
    (setupServer n c w =
        ⟨[], [], [⟨.warning, "MCP server " ++ n ++ ": no command or url configured, skipping"⟩],
          .skippedNoTransport⟩) ∨
    (∃ e, setupServer n c w = ⟨[], [], [], .failed e⟩) ∨
    (∃ t, (t = Resource.transportStdio n ∨ t = Resource.transportHttp n) ∧
      setupServer n c w = afterTransport n w t) := by
  by_cases hc : truthyStr c.command
  · cases hso : w.stdioOpen with
    | error e => exact Or.inr (Or.inl ⟨e, by simp [setupServer, hc, hso]⟩)
    | ok _ =>
      exact Or.inr (Or.inr ⟨Resource.transportStdio n, Or.inl rfl, by simp [setupServer, hc, hso]⟩)
  · by_cases hu : truthyStr c.url
    · cases hho : w.httpOpen with
      | error e => exact Or.inr (Or.inl ⟨e, by simp [setupServer, hc, hu, hho]⟩)
      | ok _ =>
        exact Or.inr (Or.inr ⟨Resource.transportHttp n, Or.inr rfl, by simp [setupServer, hc, hu, hho]⟩)
    · exact Or.inl (by simp [setupServer, hc, hu])

/-- Exhaustive shape of `afterTransport`. -/
theorem afterTransport_char (n : String) (w : ServerWorld) (t : Resource) :
    (∃ e, afterTransport n w t = ⟨[t], [], [], .failed e⟩) ∨
    (∃ e, afterTransport n w t = ⟨[t, Resource.session n], [], [], .failed e⟩) ∨
    (∃ tools, w.listToolsRes = Except.ok tools ∧
      afterTransport n w t =
        ⟨[t, Resource.session n], tools.map (MCPToolWrapper.make n),
          (tools.map (MCPToolWrapper.make n)).map (fun wr =>
            ⟨.debug, "MCP: registered tool " ++ wr.name ++ " from server " ++ n⟩)
          ++ [⟨.info, "MCP server " ++ n ++ ": connected, "
                ++ toString tools.length ++ " tools registered"⟩],
          .connected tools.length⟩) := by
  cases hse : w.sessionEnter with
  | error e => exact Or.inl ⟨e, by simp [afterTransport, hse]⟩
  | ok _ =>
    cases hh : w.handshakeRes with
    | error e => exact Or.inr (Or.inl ⟨e, by simp [afterTransport, hse, hh]⟩)
    | ok _ =>
      cases hl : w.listToolsRes with
      | error e => exact Or.inr (Or.inl ⟨e, by simp [afterTransport, hse, hh, hl]⟩)
      | ok tools =>
        exact Or.inr (Or.inr ⟨tools, rfl, by simp [afterTransport, hse, hh, hl]⟩)

/-- Every resource acquired by one server's setup is tagged with that
server's name. -/
theorem setup_resources_server (n : String) (c : ServerConfig) (w : ServerWorld) :
    ∀ r ∈ (setupServer n c w).resources, r.server = n := by
  have htr : ∀ t : Resource,
      (t = Resource.transportStdio n ∨ t = Resource.transportHttp n) → t.server = n := by
    rintro t (rfl | rfl) <;> rfl
  rcases setupServer_char n c w with h | ⟨e, h⟩ | ⟨t, ht, h⟩
  · rw [h]; intro r hr; simp at hr
  · rw [h]; intro r hr; simp at hr
  · rw [h]; intro r hr
    rcases afterTransport_char n w t with ⟨e, h2⟩ | ⟨e, h2⟩ | ⟨tools, _, h2⟩ <;> rw [h2] at hr
    · simp at hr; rw [hr]; exact htr t ht
    · simp at hr
      rcases hr with rfl | rfl
      · exact htr _ ht
      · rfl
    · simp at hr
      rcases hr with rfl | rfl
      · exact htr _ ht
      · rfl

/-- A server's iteration with a `failed` outcome registers no wrapper. -/
theorem setup_failed_no_wrappers (n : String) (c : ServerConfig) (w : ServerWorld) (e : String)
    (h : (setupServer n c w).outcome = SetupOutcome.failed e) :
    (setupServer n c w).wrappers = [] := by
  rcases setupServer_char n c w with hch | ⟨e2, hch⟩ | ⟨t, ht, hch⟩
  · rw [hch]
  · rw [hch]
  · rw [hch]
    rcases afterTransport_char n w t with ⟨e2, h2⟩ | ⟨e2, h2⟩ | ⟨tools, _, h2⟩ <;> rw [h2]
    rw [hch, h2] at h
    simp at h

/-- A server's iteration with a `connected` outcome registers exactly the
wrappers of the listed tools. -/
theorem setup_connected_wrappers (n : String) (c : ServerConfig) (w : ServerWorld)
    (tools : List ToolDef) (hlist : w.listToolsRes = Except.ok tools) (k : Nat)
    (hconn : (setupServer n c w).outcome = SetupOutcome.connected k) :
    (setupServer n c w).wrappers = tools.map (MCPToolWrapper.make n) := by
  rcases setupServer_char n c w with hch | ⟨e2, hch⟩ | ⟨t, ht, hch⟩
  · rw [hch] at hconn; simp at hconn
  · rw [hch] at hconn; simp at hconn
  · rcases afterTransport_char n w t with ⟨e2, h2⟩ | ⟨e2, h2⟩ | ⟨tools2, hl2, h2⟩
    · rw [hch, h2] at hconn; simp at hconn
    · rw [hch, h2] at hconn; simp at hconn
    · rw [hlist] at hl2
      cases hl2
      rw [hch, h2]

/-- The stack after one loop iteration: the caller's stack extended by the
resources this server entered (caught failure or not). -/
theorem connectStep_stack (st : AdapterState) (item : MCPItem) :
    (connectStep st item).stack = st.stack ++ (setupServer item.1 item.2.1 item.2.2).resources := by
  simp only [connectStep]
  split <;> rfl

/-- The registry after one loop iteration: the caller's registry extended
by the wrappers this server registered. -/
theorem connectStep_registry (st : AdapterState) (item : MCPItem) :
    (connectStep st item).registry
      = st.registry ++ (setupServer item.1 item.2.1 item.2.2).wrappers := by
  simp only [connectStep]
  split <;> rfl

/-- A caught per-server failure appends the error log record naming the
server and the cause. -/
theorem connectStep_failed_log (st : AdapterState) (item : MCPItem) (e : String)
    (h : (setupServer item.1 item.2.1 item.2.2).outcome = SetupOutcome.failed e) :
    (connectStep st item).log
      = st.log ++ (setupServer item.1 item.2.1 item.2.2).log
          ++ [⟨.error, "MCP server " ++ item.1 ++ ": failed to connect: " ++ e⟩] := by
  simp only [connectStep, h]

/-- Folding over an appended server list processes the first part, then
the second. -/
theorem connect_append (xs ys : List MCPItem) (st : AdapterState) :
    connect_mcp_servers (xs ++ ys) st = connect_mcp_servers ys (connect_mcp_servers xs st) :=
  List.foldl_append connectStep st xs ys

/-- The stack after the whole loop: the caller's stack extended by each
server's resources, in processing order. -/
theorem connect_stack_eq (servers : List MCPItem) (st : AdapterState) :
    (connect_mcp_servers servers st).stack
      = st.stack ++ (servers.map (fun it => (setupServer it.1 it.2.1 it.2.2).resources)).flatten := by
  induction servers generalizing st with
  | nil => simp [connect_mcp_servers]
  | cons hd tl ih =>
    rw [connect_mcp_servers, List.foldl_cons, ← connect_mcp_servers, ih, connectStep_stack]
    simp

/-- The registry after the whole loop: the caller's registry extended by
each server's wrappers, in processing order. -/
theorem connect_registry_eq (servers : List MCPItem) (st : AdapterState) :
    (connect_mcp_servers servers st).registry
      = st.registry ++ (servers.map (fun it => (setupServer it.1 it.2.1 it.2.2).wrappers)).flatten := by
  induction servers generalizing st with
  | nil => simp [connect_mcp_servers]
  | cons hd tl ih =>
    rw [connect_mcp_servers, List.foldl_cons, ← connect_mcp_servers, ih, connectStep_registry]
    simp

/-- Registered tools are never removed by later iterations. -/
theorem connect_registry_mono (servers : List MCPItem) (st : AdapterState)
    (x : MCPToolWrapper) (hx : x ∈ st.registry) :
    x ∈ (connect_mcp_servers servers st).registry := by
  rw [connect_registry_eq]
  exact List.mem_append_left _ hx

/-- Every tool of every successfully set-up server of the list ends up in
the final registry. -/
theorem mem_registry_of_success (servers : List MCPItem) (st0 : AdapterState)
    (n : String) (c : ServerConfig) (w : ServerWorld) (tools : List ToolDef)
    (hmem : (n, c, w) ∈ servers) (hlist : w.listToolsRes = Except.ok tools)
    (hconn : (setupServer n c w).outcome = SetupOutcome.connected tools.length)
    (td : ToolDef) (htd : td ∈ tools) :
    MCPToolWrapper.make n td ∈ (connect_mcp_servers servers st0).registry := by
  obtain ⟨s, t, rfl⟩ := List.append_of_mem hmem
  rw [connect_append]
  have hstep : MCPToolWrapper.make n td
      ∈ (connect_mcp_servers ((n, c, w) :: t) (connect_mcp_servers s st0)).registry := by
    rw [connect_mcp_servers, List.foldl_cons, ← connect_mcp_servers]
    apply connect_registry_mono
    rw [connectStep_registry]
    apply List.mem_append_right
    rw [setup_connected_wrappers n c w tools hlist tools.length hconn]
    exact List.mem_map_of_mem (MCPToolWrapper.make n) htd
  exact hstep

/-- With the session entered, the resources of one server's setup are its
transport then its session, regardless of how the later steps (handshake,
listing, registration) resolve. -/
theorem afterTransport_resources_of_session (n : String) (w : ServerWorld) (t : Resource)
    (hse : w.sessionEnter = Except.ok ()) :
    (afterTransport n w t).resources = [t, Resource.session n] := by
  cases hh : w.handshakeRes <;> cases hl : w.listToolsRes <;>
    simp [afterTransport, hse, hh, hl]

/-- In the stdio branch with the transport entered, `setupServer` is
`afterTransport` on the stdio transport. -/
theorem setupServer_stdio_eq (n : String) (c : ServerConfig) (w : ServerWorld)
    (hc : truthyStr c.command = true) (hso : w.stdioOpen = Except.ok ()) :
    setupServer n c w = afterTransport n w (Resource.transportStdio n) := by
  simp [setupServer, hc, hso]

/-- In the http branch with the transport entered, `setupServer` is
`afterTransport` on the http transport. -/
theorem setupServer_http_eq (n : String) (c : ServerConfig) (w : ServerWorld)
    (hc : truthyStr c.command = false) (hu : truthyStr c.url = true)
    (hho : w.httpOpen = Except.ok ()) :
    setupServer n c w = afterTransport n w (Resource.transportHttp n) := by
  simp [setupServer, hc, hu, hho]

/-- A server whose transport and session were both entered acquired
exactly its transport then its session, whatever happened afterwards. -/
theorem setup_resources_of_entered (n : String) (c : ServerConfig) (w : ServerWorld)
    (htrans : (truthyStr c.command = true ∧ w.stdioOpen = Except.ok ()) ∨
      (truthyStr c.command = false ∧ truthyStr c.url = true ∧ w.httpOpen = Except.ok ()))
    (hse : w.sessionEnter = Except.ok ()) :
    ∃ t, (t = Resource.transportStdio n ∨ t = Resource.transportHttp n) ∧
      (setupServer n c w).resources = [t, Resource.session n] := by
  rcases htrans with ⟨hc, hso⟩ | ⟨hc, hu, hho⟩
  · exact ⟨Resource.transportStdio n, Or.inl rfl, by
      rw [setupServer_stdio_eq n c w hc hso]
      exact afterTransport_resources_of_session n w _ hse⟩
  · exact ⟨Resource.transportHttp n, Or.inr rfl, by
      rw [setupServer_http_eq n c w hc hu hho]
      exact afterTransport_resources_of_session n w _ hse⟩

/-- Splitting a list at an element-free separator occurrence is unique. -/
theorem sep_split {α : Type} (c : α) :
    ∀ (l1 l2 r1 r2 : List α), c ∉ l1 → c ∉ l2 →
      l1 ++ c :: r1 = l2 ++ c :: r2 → l1 = l2 ∧ r1 = r2 := by
  intro l1
  induction l1 with
  | nil =>
    intro l2 r1 r2 h1 h2 h
    cases l2 with
    | nil => simpa using h
    | cons y l2 =>
      exfalso
      simp only [List.nil_append, List.cons_append, List.cons.injEq] at h
      apply h2
      rw [h.1]
      exact List.mem_cons_self y l2
  | cons x l1 ih =>
    intro l2 r1 r2 h1 h2 h
    cases l2 with
    | nil =>
      exfalso
      simp only [List.nil_append, List.cons_append, List.cons.injEq] at h
      apply h1
      rw [← h.1]
      exact List.mem_cons_self x l1
    | cons y l2 =>
      simp only [List.cons_append, List.cons.injEq] at h
      obtain ⟨hxy, htail⟩ := h
      have hrec := ih l2 r1 r2 (fun hm => h1 (List.mem_cons_of_mem x hm))
        (fun hm => h2 (List.mem_cons_of_mem y hm)) htail
      exact ⟨by rw [hxy, hrec.1], hrec.2⟩

/-- Wrapper names of two distinct servers never coincide, provided the
server names contain no underscore (the separator of the composite). -/
theorem wrapper_name_injective (s1 s2 : String) (t1 t2 : ToolDef)
    (h1 : ('_' : Char) ∉ s1.data) (h2 : ('_' : Char) ∉ s2.data) (hne : s1 ≠ s2) :
    (MCPToolWrapper.make s1 t1).name ≠ (MCPToolWrapper.make s2 t2).name := by
  intro h
  apply hne
  have hd : ("mcp_" ++ s1 ++ "_" ++ t1.name).data = ("mcp_" ++ s2 ++ "_" ++ t2.name).data :=
    congrArg String.data h
  have hmcp : ("mcp_" : String).data = ['m', 'c', 'p', '_'] := rfl
  have hsep : ("_" : String).data = ['_'] := rfl
  simp only [String.data_append, hmcp, hsep, List.append_assoc, List.cons_append,
    List.nil_append, List.singleton_append, List.cons.injEq, true_and] at hd
  exact String.ext (sep_split '_' s1.data s2.data t1.name.data t2.name.data h1 h2 hd).1

/-- C1 counterexample: the servers "a" and "a_b" are distinct, both set up
successfully, yet the wrapper of remote tool "b_c" on server "a" and the
wrapper of remote tool "c" on server "a_b" are both named "mcp_a_b_c": the
composite naming scheme does not guarantee cross-server uniqueness. -/
theorem C1_wrapper_collision_counterexample :
    ("a" : String) ≠ "a_b" ∧
    (connect_mcp_servers
        [("a", sampleStdioCfg, sampleWorldOk [⟨"b_c", none, none⟩]),
          ("a_b", sampleStdioCfg, sampleWorldOk [⟨"c", none, none⟩])]
        emptyState).registry.map (fun t => t.name) = ["mcp_a_b_c", "mcp_a_b_c"] := by
  exact ⟨by decide, by rfl⟩

/-- C1 (amended): for every server whose setup succeeds, exactly
`len(tools)` wrapper tools are registered, each named
`mcp_<server>_<tool>`; and the wrapper names of two distinct servers never
collide provided the server names contain no underscore — in particular
two such servers exposing identically-named remote tools get distinct
wrapper names.  (Without that restriction distinct servers can collide,
see the counterexample.) -/
theorem C1_registration_and_naming (st : AdapterState) (name : String)
    (cfg : ServerConfig) (w : ServerWorld) (tools : List ToolDef)
    (hlist : w.listToolsRes = Except.ok tools)
    (hconn : (setupServer name cfg w).outcome = SetupOutcome.connected tools.length) :
    (connectStep st (name, cfg, w)).registry
      = st.registry ++ tools.map (MCPToolWrapper.make name) ∧
    (∀ td : ToolDef, (MCPToolWrapper.make name td).name = "mcp_" ++ name ++ "_" ++ td.name) ∧
    (∀ s1 s2 : String, ∀ t1 t2 : ToolDef, s1 ≠ s2 →
      ('_' : Char) ∉ s1.data → ('_' : Char) ∉ s2.data →
      (MCPToolWrapper.make s1 t1).name ≠ (MCPToolWrapper.make s2 t2).name) := by
  refine ⟨?_, fun td => rfl,
    fun s1 s2 t1 t2 hne h1 h2 => wrapper_name_injective s1 s2 t1 t2 h1 h2 hne⟩
  rw [connectStep_registry,
    setup_connected_wrappers name cfg w tools hlist tools.length hconn]

/-- Witness for C1 at a concrete input: one successful server "alpha" with
one remote tool "echo" registers exactly one wrapper, named
"mcp_alpha_echo". -/
theorem C1_registration_and_naming_witness :
    (connectStep emptyState
        ("alpha", sampleStdioCfg, sampleWorldOk [⟨"echo", none, none⟩])).registry
      = [MCPToolWrapper.make "alpha" ⟨"echo", none, none⟩] ∧
    (MCPToolWrapper.make "alpha" ⟨"echo", none, none⟩).name = "mcp_alpha_echo" := by
  have h := C1_registration_and_naming emptyState "alpha" sampleStdioCfg
    (sampleWorldOk [⟨"echo", none, none⟩]) [⟨"echo", none, none⟩] rfl rfl
  refine ⟨?_, ?_⟩
  · rw [h.1]; rfl
  · rw [h.2.1 ⟨"echo", none, none⟩]; rfl

/-- C3: a failure anywhere in one server's setup is caught inside that
server's iteration — `connect_mcp_servers` continues as a total fold over
the remaining servers — the failing server contributes no registered
tool, its failure is logged with its name and cause, and every other
successfully set-up server's tools are still in the final registry. -/
theorem C3_failure_isolation (pre post : List MCPItem) (name : String)
    (cfg : ServerConfig) (w : ServerWorld) (st0 : AdapterState) (e : String)
    (hfail : (setupServer name cfg w).outcome = SetupOutcome.failed e) :
    connect_mcp_servers (pre ++ (name, cfg, w) :: post) st0
      = connect_mcp_servers post (connectStep (connect_mcp_servers pre st0) (name, cfg, w)) ∧
    (connectStep (connect_mcp_servers pre st0) (name, cfg, w)).registry
      = (connect_mcp_servers pre st0).registry ∧
    (LogEntry.mk .error ("MCP server " ++ name ++ ": failed to connect: " ++ e)
      ∈ (connectStep (connect_mcp_servers pre st0) (name, cfg, w)).log) ∧
    (∀ n2 c2 w2 tools2, (n2, c2, w2) ∈ pre ++ (name, cfg, w) :: post →
      w2.listToolsRes = Except.ok tools2 →
      (setupServer n2 c2 w2).outcome = SetupOutcome.connected tools2.length →
      ∀ td ∈ tools2,
        MCPToolWrapper.make n2 td
          ∈ (connect_mcp_servers (pre ++ (name, cfg, w) :: post) st0).registry) := by
  refine ⟨?_, ?_, ?_, ?_⟩
  · rw [connect_append]
    rfl
  · rw [connectStep_registry]
    rw [setup_failed_no_wrappers name cfg w e hfail]
    simp
  · rw [connectStep_failed_log _ _ e hfail]
    simp
  · intro n2 c2 w2 tools2 hmem hlist hconn td htd
    exact mem_registry_of_success (pre ++ (name, cfg, w) :: post) st0 n2 c2 w2 tools2
      hmem hlist hconn td htd

/-- Witness for C3 at a concrete input: with a failing server between two
healthy ones, the failure is logged with the server name and both healthy
servers' tools end up in the registry. -/
theorem C3_failure_isolation_witness :
    (LogEntry.mk .error "MCP server bad: failed to connect: handshake refused"
      ∈ (connectStep
          (connect_mcp_servers [("s1", sampleStdioCfg, sampleWorldOk [⟨"echo", none, none⟩])]
            emptyState)
          ("bad", sampleStdioCfg, sampleWorldBadHandshake)).log) ∧
    MCPToolWrapper.make "s1" ⟨"echo", none, none⟩
      ∈ (connect_mcp_servers
          ([("s1", sampleStdioCfg, sampleWorldOk [⟨"echo", none, none⟩])]
            ++ ("bad", sampleStdioCfg, sampleWorldBadHandshake)
              :: [("s2", sampleStdioCfg, sampleWorldOk [⟨"ping", none, none⟩])])
          emptyState).registry ∧
    MCPToolWrapper.make "s2" ⟨"ping", none, none⟩
      ∈ (connect_mcp_servers
          ([("s1", sampleStdioCfg, sampleWorldOk [⟨"echo", none, none⟩])]
            ++ ("bad", sampleStdioCfg, sampleWorldBadHandshake)
              :: [("s2", sampleStdioCfg, sampleWorldOk [⟨"ping", none, none⟩])])
          emptyState).registry := by
  have h := C3_failure_isolation
    [("s1", sampleStdioCfg, sampleWorldOk [⟨"echo", none, none⟩])]
    [("s2", sampleStdioCfg, sampleWorldOk [⟨"ping", none, none⟩])]
    "bad" sampleStdioCfg sampleWorldBadHandshake emptyState "handshake refused" rfl
  refine ⟨h.2.2.1, ?_, ?_⟩
  · exact h.2.2.2 "s1" sampleStdioCfg (sampleWorldOk [⟨"echo", none, none⟩])
      [⟨"echo", none, none⟩] (by simp) rfl rfl ⟨"echo", none, none⟩ (by simp)
  · exact h.2.2.2 "s2" sampleStdioCfg (sampleWorldOk [⟨"ping", none, none⟩])
      [⟨"ping", none, none⟩] (by simp) rfl rfl ⟨"ping", none, none⟩ (by simp)

/-- C4: once a server's session is entered it is finalized exactly once
when the enclosing stack unwinds, on every exit path; and the resources
already acquired for that server are unwound in reverse order of
acquisition — the session immediately, then its transport — including
when a later step of that same server's setup (handshake, listing or
registration) fails. -/
theorem C4_session_teardown (pre post : List MCPItem) (name : String)
    (cfg : ServerConfig) (w : ServerWorld) (st0 : AdapterState)
    (hpre : ∀ it ∈ pre, it.1 ≠ name) (hpost : ∀ it ∈ post, it.1 ≠ name)
    (hstack0 : ∀ r ∈ st0.stack, r.server ≠ name)
    (htrans : (truthyStr cfg.command = true ∧ w.stdioOpen = Except.ok ()) ∨
      (truthyStr cfg.command = false ∧ truthyStr cfg.url = true ∧ w.httpOpen = Except.ok ()))
    (hsess : w.sessionEnter = Except.ok ()) :
    ∃ t A B,
      (t = Resource.transportStdio name ∨ t = Resource.transportHttp name) ∧
      closeStack (connect_mcp_servers (pre ++ (name, cfg, w) :: post) st0)
        = A ++ Resource.session name :: t :: B ∧
      Resource.session name ∉ A ∧ Resource.session name ∉ B := by
  obtain ⟨t, ht, hres⟩ := setup_resources_of_entered name cfg w htrans hsess
  have hstack : (connect_mcp_servers (pre ++ (name, cfg, w) :: post) st0).stack
      = (st0.stack
          ++ (pre.map (fun it => (setupServer it.1 it.2.1 it.2.2).resources)).flatten)
        ++ ([t, Resource.session name]
          ++ (post.map (fun it => (setupServer it.1 it.2.1 it.2.2).resources)).flatten) := by
    rw [connect_stack_eq, List.map_append, List.map_cons, List.flatten_append,
      List.flatten_cons, hres]
    simp [List.append_assoc]
  have hnotpre : Resource.session name
      ∉ st0.stack ++ (pre.map (fun it => (setupServer it.1 it.2.1 it.2.2).resources)).flatten := by
    intro hmem
    rcases List.mem_append.mp hmem with h0 | hf
    · exact hstack0 _ h0 rfl
    · rcases List.mem_flatten.mp hf with ⟨l, hl, hrl⟩
      rcases List.mem_map.mp hl with ⟨it, hit, rfl⟩
      exact hpre it hit (setup_resources_server it.1 it.2.1 it.2.2 _ hrl).symm
  have hnotpost : Resource.session name
      ∉ (post.map (fun it => (setupServer it.1 it.2.1 it.2.2).resources)).flatten := by
    intro hf
    rcases List.mem_flatten.mp hf with ⟨l, hl, hrl⟩
    rcases List.mem_map.mp hl with ⟨it, hit, rfl⟩
    exact hpost it hit (setup_resources_server it.1 it.2.1 it.2.2 _ hrl).symm
  refine ⟨t,
    (post.map (fun it => (setupServer it.1 it.2.1 it.2.2).resources)).flatten.reverse,
    (st0.stack
      ++ (pre.map (fun it => (setupServer it.1 it.2.1 it.2.2).resources)).flatten).reverse,
    ht, ?_, ?_, ?_⟩
  · rw [closeStack, hstack]
    rw [List.reverse_append, List.reverse_append]
    simp
  · intro hmem
    exact hnotpost (List.mem_reverse.mp hmem)
  · intro hmem
    exact hnotpre (List.mem_reverse.mp hmem)

/-- Witness for C4 at a concrete input: a lone server whose handshake
fails after the session was entered still has its session closed exactly
once, right before its transport. -/
theorem C4_session_teardown_witness :
    ∃ t A B,
      (t = Resource.transportStdio "s1" ∨ t = Resource.transportHttp "s1") ∧
      closeStack (connect_mcp_servers
          ([] ++ ("s1", sampleStdioCfg, sampleWorldBadHandshake) :: []) emptyState)
        = A ++ Resource.session "s1" :: t :: B ∧
      Resource.session "s1" ∉ A ∧ Resource.session "s1" ∉ B :=
  C4_session_teardown [] [] "s1" sampleStdioCfg sampleWorldBadHandshake emptyState
    (by intro it h; simp at h) (by intro it h; simp at h) (by intro r h; simp [emptyState] at h)
    (Or.inl ⟨rfl, rfl⟩) rfl

/-- C2: `MCPToolWrapper.execute` returns the newline-separated
concatenation in which each text content block contributes its text and
each non-text block its stringification, with no block dropped and no
exception (the function is total); whenever that concatenation is the
empty string — in particular for zero content blocks — the literal
sentinel "(no output)" is returned instead. -/
theorem C2_execute_rendering (content : List ContentBlock) :
    ((content.map blockToPart).length = content.length ∧
      ∀ t, blockToPart (ContentBlock.text t) = t ∧ blockToPart (ContentBlock.other t) = t) ∧
    (String.intercalate "\n" (content.map blockToPart) ≠ "" →
      MCPToolWrapper.execute ⟨content⟩ = String.intercalate "\n" (content.map blockToPart)) ∧
    (String.intercalate "\n" (content.map blockToPart) = "" →
      MCPToolWrapper.execute ⟨content⟩ = "(no output)") ∧
    (content = [] → MCPToolWrapper.execute ⟨content⟩ = "(no output)") := by
  refine ⟨⟨content.length_map blockToPart, fun t => ⟨rfl, rfl⟩⟩, ?_, ?_, ?_⟩
  · intro h; simp [MCPToolWrapper.execute, h]
  · intro h; simp [MCPToolWrapper.execute, h]
  · intro h; subst h; rfl

/-- Witness for C2 at concrete inputs: an empty response yields the
sentinel, and a response mixing a non-text block and a text block yields
their newline-joined rendering. -/
theorem C2_execute_rendering_witness :
    MCPToolWrapper.execute ⟨[]⟩ = "(no output)" ∧
    MCPToolWrapper.execute ⟨[ContentBlock.other "blob", ContentBlock.text "hi"]⟩
      = "blob\nhi" := by
  refine ⟨(C2_execute_rendering []).2.2.2 rfl, ?_⟩
  have h := (C2_execute_rendering [ContentBlock.other "blob", ContentBlock.text "hi"]).2.1
    (by decide)
  rw [h]
  rfl

/-- C7: a cancellation signal delivered at the bounded wait on the
outbound queue terminates the dispatcher loop cleanly — the loop returns
instead of letting the cancellation escape, and no further queued events
are processed — while a plain timeout of the bounded wait just loops
again on the rest of the stream.  (Real-time duration is abstracted: in
the event-stream model the cancellation is handled at the wait in which
it is delivered, which is what the 1-second timeout guarantees.) -/
theorem C7_cancellation_terminates (channels : List (String × ChannelConf))
    (rest : List QueueEvent) :
    dispatchLoop channels (QueueEvent.cancelled :: rest) = [] ∧
    dispatchLoop channels (QueueEvent.timedOut :: rest) = dispatchLoop channels rest :=
  ⟨rfl, rfl⟩

/-- C8: a server whose config has neither a (truthy) command nor a
(truthy) url is skipped with a warning naming it: no exception (outcome is
`skippedNoTransport`, not `failed`), no resource entered, no tool
registered, and the loop proceeds to the remaining servers with only the
warning appended to the log. -/
theorem C8_skip_unconfigured (name : String) (cfg : ServerConfig) (w : ServerWorld)
    (rest : List MCPItem) (st : AdapterState)
    (hc : truthyStr cfg.command = false) (hu : truthyStr cfg.url = false) :
    setupServer name cfg w =
      ⟨[], [],
        [⟨.warning, "MCP server " ++ name ++ ": no command or url configured, skipping"⟩],
        .skippedNoTransport⟩ ∧
    connectStep st (name, cfg, w) =
      ⟨st.stack, st.registry,
        st.log ++ [⟨.warning, "MCP server " ++ name ++ ": no command or url configured, skipping"⟩]⟩ ∧
    connect_mcp_servers ((name, cfg, w) :: rest) st =
      connect_mcp_servers rest
        ⟨st.stack, st.registry,
          st.log ++ [⟨.warning, "MCP server " ++ name ++ ": no command or url configured, skipping"⟩]⟩ := by
  have hs : setupServer name cfg w =
      ⟨[], [],
        [⟨.warning, "MCP server " ++ name ++ ": no command or url configured, skipping"⟩],
        .skippedNoTransport⟩ := by
    simp [setupServer, hc, hu]
  have hstep : connectStep st (name, cfg, w) =
      ⟨st.stack, st.registry,
        st.log ++ [⟨.warning, "MCP server " ++ name ++ ": no command or url configured, skipping"⟩]⟩ := by
    simp [connectStep, hs]
  exact ⟨hs, hstep, by simp [connect_mcp_servers, List.foldl_cons, hstep]⟩

/-- Witness for C8 at a concrete input: a server with neither command nor
url is skipped with the warning and nothing else changes. -/
theorem C8_skip_unconfigured_witness :
    setupServer "ghost" sampleEmptyCfg (sampleWorldOk []) =
      ⟨[], [],
        [⟨.warning, "MCP server ghost: no command or url configured, skipping"⟩],
        .skippedNoTransport⟩ :=
  (C8_skip_unconfigured "ghost" sampleEmptyCfg (sampleWorldOk []) [] emptyState rfl rfl).1

/-- The channel tasks started for a channel list: one per channel, in
table order. -/
theorem startedChannelTasks_channels (channels : List (String × ChannelConf)) :
    startedChannelTasks ((channels.map (fun it =>
        [StartAction.logged ⟨.info, "Starting " ++ it.1 ++ " channel..."⟩,
          StartAction.channelTaskStarted it.1])).flatten)
      = channels.map Prod.fst := by
  induction channels with
  | nil => rfl
  | cons hd tl ih =>
    simp only [List.map_cons, List.flatten_cons, startedChannelTasks,
      List.filterMap_append] at ih ⊢
    rw [ih]
    rfl

/-- No channel-start block launches a dispatcher task. -/
theorem dispatcherStartCount_channels (channels : List (String × ChannelConf)) :
    dispatcherStartCount ((channels.map (fun it =>
        [StartAction.logged ⟨.info, "Starting " ++ it.1 ++ " channel..."⟩,
          StartAction.channelTaskStarted it.1])).flatten) = 0 := by
  induction channels with
  | nil => rfl
  | cons hd tl ih =>
    simp only [List.map_cons, List.flatten_cons, dispatcherStartCount,
      List.filter_append, List.length_append] at ih ⊢
    rw [ih]
    rfl

/-- The channels stopped by the stop loop: every one, in table order,
whether or not its `stop` raised. -/
theorem stoppedChannels_channels (channels : List (String × ChannelConf)) :
    stoppedChannels ((channels.map stopChannelStep).flatten) = channels.map Prod.fst := by
  induction channels with
  | nil => rfl
  | cons hd tl ih =>
    simp only [List.map_cons, List.flatten_cons, stoppedChannels,
      List.filterMap_append] at ih ⊢
    rw [ih]
    cases h : hd.2.stopRes <;> simp [stopChannelStep, h]

/-- C5: for every outbound message the dispatcher consumes, if its channel
name is a key of the registration table the channel's `send` is invoked
and a failure of `send` is caught and logged with the channel name and
cause; if it is not a key, a warning naming the unknown channel is logged
and the message is dropped (no `send` anywhere); in both cases the loop
goes on to the subsequent events. -/
theorem C5_dispatch_routing (channels : List (String × ChannelConf))
    (m : OutboundMessage) (rest : List QueueEvent) :
    dispatchLoop channels (QueueEvent.message m :: rest)
      = handleMessage channels m ++ dispatchLoop channels rest ∧
    (∀ ch, channelsGet channels m.channel = some ch →
      DispatchAction.sendInvoked m.channel m ∈ handleMessage channels m ∧
      ∀ e, ch.sendRes m = Except.error e →
        DispatchAction.logged ⟨.error, "Error sending to " ++ m.channel ++ ": " ++ e⟩
          ∈ handleMessage channels m) ∧
    (channelsGet channels m.channel = none →
      handleMessage channels m
        = [DispatchAction.logged ⟨.warning, "Unknown channel: " ++ m.channel⟩]) := by
  refine ⟨rfl, ?_, ?_⟩
  · intro ch hch
    constructor
    · cases hs : ch.sendRes m <;> simp [handleMessage, hch, hs]
    · intro e he
      simp [handleMessage, hch, he]
  · intro hnone
    simp [handleMessage, hnone]

/-- Witness for C5 at concrete inputs: a failing `send` on a registered
channel is invoked and its failure logged; a message for an unregistered
channel produces exactly the unknown-channel warning. -/
theorem C5_dispatch_routing_witness :
    (DispatchAction.sendInvoked "telegram" ⟨"telegram", "hi"⟩
      ∈ handleMessage [("telegram", sampleChanSendFail)] ⟨"telegram", "hi"⟩) ∧
    (DispatchAction.logged ⟨.error, "Error sending to telegram: socket closed"⟩
      ∈ handleMessage [("telegram", sampleChanSendFail)] ⟨"telegram", "hi"⟩) ∧
    handleMessage [("telegram", sampleChanOk)] ⟨"ghost", "hi"⟩
      = [DispatchAction.logged ⟨.warning, "Unknown channel: ghost"⟩] := by
  have h1 := C5_dispatch_routing [("telegram", sampleChanSendFail)] ⟨"telegram", "hi"⟩ []
  have h2 := C5_dispatch_routing [("telegram", sampleChanOk)] ⟨"ghost", "hi"⟩ []
  exact ⟨(h1.2.1 sampleChanSendFail rfl).1,
    (h1.2.1 sampleChanSendFail rfl).2 "socket closed" rfl,
    h2.2.2 rfl⟩

/-- C6: `stop_all` first cancels the dispatcher task and awaits it — the
await resolves in the cancellation signal, which is swallowed so execution
continues — and only then invokes `stop` on the channels: the trace puts
the cancel and the await strictly before every channel stop, `stop` is
invoked on every channel in table order even when an earlier channel's
`stop` raises, and a raising `stop` is logged with the channel name and
cause. -/
theorem C6_stop_all_order (channels : List (String × ChannelConf)) :
    stop_all true channels
      = StopAction.logged ⟨.info, "Stopping all channels..."⟩ ::
          StopAction.cancelDispatcher :: StopAction.awaitDispatcher ::
          (channels.map stopChannelStep).flatten ∧
    stoppedChannels (stop_all true channels) = channels.map Prod.fst ∧
    (∀ name conf e, (name, conf) ∈ channels → conf.stopRes = Except.error e →
      StopAction.logged ⟨.error, "Error stopping " ++ name ++ ": " ++ e⟩
        ∈ stop_all true channels) := by
  refine ⟨rfl, ?_, ?_⟩
  · show stoppedChannels (StopAction.logged _ :: StopAction.cancelDispatcher ::
      StopAction.awaitDispatcher :: (channels.map stopChannelStep).flatten) = _
    simp only [stoppedChannels, List.filterMap_cons]
    exact stoppedChannels_channels channels
  · intro name conf e hmem he
    have hin : StopAction.logged ⟨.error, "Error stopping " ++ name ++ ": " ++ e⟩
        ∈ (channels.map stopChannelStep).flatten := by
      apply List.mem_flatten.mpr
      refine ⟨stopChannelStep (name, conf), List.mem_map_of_mem stopChannelStep hmem, ?_⟩
      simp [stopChannelStep, he]
    show _ ∈ StopAction.logged _ :: StopAction.cancelDispatcher ::
      StopAction.awaitDispatcher :: (channels.map stopChannelStep).flatten
    exact List.mem_cons_of_mem _ (List.mem_cons_of_mem _ (List.mem_cons_of_mem _ hin))

/-- Witness for C6 at a concrete input: with a first channel whose `stop`
raises, the failure is logged and the second channel is still stopped. -/
theorem C6_stop_all_order_witness :
    (StopAction.logged ⟨.error, "Error stopping telegram: stop timeout"⟩
      ∈ stop_all true [("telegram", sampleChanStopFail), ("whatsapp", sampleChanOk)]) ∧
    stoppedChannels
        (stop_all true [("telegram", sampleChanStopFail), ("whatsapp", sampleChanOk)])
      = ["telegram", "whatsapp"] := by
  have h := C6_stop_all_order [("telegram", sampleChanStopFail), ("whatsapp", sampleChanOk)]
  exact ⟨h.2.2 "telegram" sampleChanStopFail "stop timeout" (by simp) rfl, h.2.1⟩

/-- C9: `start_all` on an empty channel table reports the warning and
returns without launching the dispatcher task or any channel task; on a
non-empty table it launches exactly one dispatcher task and one task per
channel. -/
theorem C9_start_all_tasks (channels : List (String × ChannelConf)) :
    (channels = [] →
      start_all channels = [StartAction.logged ⟨.warning, "No channels enabled"⟩] ∧
      StartAction.dispatcherTaskStarted ∉ start_all channels ∧
      ∀ n, StartAction.channelTaskStarted n ∉ start_all channels) ∧
    (channels ≠ [] →
      startedChannelTasks (start_all channels) = channels.map Prod.fst ∧
      dispatcherStartCount (start_all channels) = 1) := by
  constructor
  · intro h
    subst h
    refine ⟨rfl, ?_, ?_⟩
    · intro hmem
      simp [start_all] at hmem
    · intro n hmem
      simp [start_all] at hmem
  · intro h
    cases channels with
    | nil => exact absurd rfl h
    | cons hd tl =>
      have hne : ((hd :: tl : List (String × ChannelConf)).isEmpty) = false := rfl
      constructor
      · rw [start_all, hne]
        simp only [Bool.false_eq_true, if_false, startedChannelTasks, List.filterMap_cons]
        exact startedChannelTasks_channels (hd :: tl)
      · rw [start_all, hne]
        have h0 := dispatcherStartCount_channels (hd :: tl)
        rw [dispatcherStartCount, List.length_eq_zero] at h0
        simp only [Bool.false_eq_true, if_false, dispatcherStartCount, List.filter_cons, h0]
        rfl

/-- C10: when a server's config has both a truthy command and a url, the
stdio branch is taken and the url is silently ignored: the setup is
insensitive to the url value, no streaming-http transport is consulted or
acquired, and the server is not treated as misconfigured (its outcome is
never the skip). -/
theorem C10_command_precedence (name : String) (cfg : ServerConfig) (w : ServerWorld)
    (u : Option String) (x : Except String Unit)
    (hc : truthyStr cfg.command = true) :
    setupServer name cfg w = setupServer name { cfg with url := u } w ∧
    setupServer name cfg w = setupServer name cfg { w with httpOpen := x } ∧
    Resource.transportHttp name ∉ (setupServer name cfg w).resources ∧
    (setupServer name cfg w).outcome ≠ SetupOutcome.skippedNoTransport := by
  refine ⟨by simp [setupServer, hc], by simp only [setupServer, hc]; rfl, ?_, ?_⟩
  · cases hso : w.stdioOpen with
    | error e => simp [setupServer, hc, hso]
    | ok _ =>
      rw [setupServer_stdio_eq name cfg w hc (by rw [hso])]
      rcases afterTransport_char name w (Resource.transportStdio name)
        with ⟨e, h2⟩ | ⟨e, h2⟩ | ⟨tools, _, h2⟩ <;> rw [h2] <;> simp
  · cases hso : w.stdioOpen with
    | error e => simp [setupServer, hc, hso]
    | ok _ =>
      rw [setupServer_stdio_eq name cfg w hc (by rw [hso])]
      rcases afterTransport_char name w (Resource.transportStdio name)
        with ⟨e, h2⟩ | ⟨e, h2⟩ | ⟨tools, _, h2⟩ <;> rw [h2] <;> simp

/-- Witness for C10 at a concrete input: with both a command and a url
configured, the setup equals the setup with the url removed, and no http
transport is acquired. -/
theorem C10_command_precedence_witness :
    setupServer "dual" ⟨some "run-server", [], none, some "http://x"⟩ (sampleWorldOk [])
      = setupServer "dual" ⟨some "run-server", [], none, none⟩ (sampleWorldOk []) ∧
    Resource.transportHttp "dual"
      ∉ (setupServer "dual" ⟨some "run-server", [], none, some "http://x"⟩
          (sampleWorldOk [])).resources := by
  have h := C10_command_precedence "dual" ⟨some "run-server", [], none, some "http://x"⟩
    (sampleWorldOk []) none (Except.ok ()) rfl
  exact ⟨h.1, h.2.2.1⟩

/-- Witness for C9 at concrete inputs: the empty table yields only the
warning; a one-channel table launches that channel's task. -/
theorem C9_start_all_tasks_witness :
    start_all [] = [StartAction.logged ⟨.warning, "No channels enabled"⟩] ∧
    startedChannelTasks (start_all [("telegram", sampleChanOk)]) = ["telegram"] ∧
    dispatcherStartCount (start_all [("telegram", sampleChanOk)]) = 1 := by
  have h0 := (C9_start_all_tasks []).1 rfl
  have h1 := (C9_start_all_tasks [("telegram", sampleChanOk)]).2 (by simp)
  exact ⟨h0.1, h1.1, h1.2⟩

end Nanobot
